import Mathlib

/-!
Verification of core claims about the wazero fork's runtime layer: ARM64
relocation and trampoline encoding, the file-descriptor context, readdir
cursors, open-flag validation, close idempotence, pipe polling and label
identity packing.  Each Go function cited by a claim is shallowly embedded
as an executable Lean definition; machine integers are modelled as Nat/Int
with explicit two-power wrapping where Go overflow semantics matter.
-/

/-! ## Errno model

Errno values mirror the Go syscall package constants used by the sources
(the sources return these through syscall.Errno; 0 means success). -/

abbrev Errno := Nat

def ENOENT : Errno := 2
def EBADF : Errno := 9
def ENOTDIR : Errno := 20
def EISDIR : Errno := 21
def EINVAL : Errno := 22
def ENOSYS : Errno := 38
def ENOTSUP : Errno := 95

/-! ## Labels (internal/wazeroir/operations.go)

Label has a uint32 FrameID and a byte Kind; ID packs them as
LabelID(l.Kind) | LabelID(l.FrameID)<<32 on uint64.  FrameID and Kind are
modelled as Nat carrying the machine-width bounds as hypotheses. -/

structure Label where
  FrameID : Nat
  Kind : Nat

def Label.ID (l : Label) : Nat :=
  l.Kind ||| (l.FrameID <<< 32)

def LabelKindHeader : Nat := 0
def LabelKindElse : Nat := 1
def LabelKindContinuation : Nat := 2
def LabelKindReturn : Nat := 3

theorem lor_shiftLeft_mod (k f n : Nat) (hk : k < 2 ^ n) :
    (k ||| f <<< n) % 2 ^ n = k := by
  apply Nat.eq_of_testBit_eq
  intro i
  rw [Nat.testBit_mod_two_pow]
  rcases Nat.lt_or_ge i n with h | h
  · simp [h, Nat.testBit_shiftLeft, Nat.not_le.mpr h]
  · have hki : k.testBit i = false :=
      Nat.testBit_lt_two_pow (lt_of_lt_of_le hk (Nat.pow_le_pow_right (by norm_num) h))
    simp [Nat.not_lt.mpr h, hki]

theorem lor_shiftLeft_shiftRight (k f n : Nat) (hk : k < 2 ^ n) :
    (k ||| f <<< n) >>> n = f := by
  apply Nat.eq_of_testBit_eq
  intro i
  have hki : k.testBit (n + i) = false :=
    Nat.testBit_lt_two_pow
      (lt_of_lt_of_le hk (Nat.pow_le_pow_right (by norm_num) (Nat.le_add_right n i)))
  simp [Nat.testBit_shiftRight, Nat.testBit_shiftLeft, hki]

/-- C7: Label identity packing is a bijection onto its image inside 64 bits:
ID is literally kind | frameID << 32, two labels get the same ID exactly when
kind and frame-ID agree, and every ID fits in 64 bits. -/
theorem C7_label_id_packing (l₁ l₂ : Label)
    (hk₁ : l₁.Kind < 2 ^ 8) (hf₁ : l₁.FrameID < 2 ^ 32)
    (hk₂ : l₂.Kind < 2 ^ 8) (hf₂ : l₂.FrameID < 2 ^ 32) :
    l₁.ID = l₁.Kind ||| (l₁.FrameID <<< 32) ∧
    l₁.ID < 2 ^ 64 ∧
    (l₁.ID = l₂.ID ↔ l₁.Kind = l₂.Kind ∧ l₁.FrameID = l₂.FrameID) := by
  have hk₁32 : l₁.Kind < 2 ^ 32 := lt_of_lt_of_le hk₁ (by norm_num)
  have hk₂32 : l₂.Kind < 2 ^ 32 := lt_of_lt_of_le hk₂ (by norm_num)
  refine ⟨rfl, ?_, ?_⟩
  · have h := Nat.append_lt hk₁32 hf₁
    rw [Nat.lor_comm] at h
    exact h
  · constructor
    · intro h
      unfold Label.ID at h
      constructor
      · have h₂ := congrArg (fun x : Nat => x % 2 ^ 32) h
        simp only [] at h₂
        rwa [lor_shiftLeft_mod _ _ _ hk₁32, lor_shiftLeft_mod _ _ _ hk₂32] at h₂
      · have h₂ := congrArg (fun x : Nat => x >>> 32) h
        simp only [] at h₂
        rwa [lor_shiftLeft_shiftRight _ _ _ hk₁32,
             lor_shiftLeft_shiftRight _ _ _ hk₂32] at h₂
    · intro ⟨h₁, h₂⟩
      unfold Label.ID
      rw [h₁, h₂]

theorem C7_label_id_packing_witness :
    (⟨7, 2⟩ : Label).Kind < 2 ^ 8 ∧ (⟨7, 2⟩ : Label).FrameID < 2 ^ 32 ∧
    (⟨9, 3⟩ : Label).Kind < 2 ^ 8 ∧ (⟨9, 3⟩ : Label).FrameID < 2 ^ 32 ∧
    ((⟨7, 2⟩ : Label).ID = (⟨9, 3⟩ : Label).ID ↔
      (⟨7, 2⟩ : Label).Kind = (⟨9, 3⟩ : Label).Kind ∧
      (⟨7, 2⟩ : Label).FrameID = (⟨9, 3⟩ : Label).FrameID) :=
  ⟨by decide, by decide, by decide, by decide,
    (C7_label_id_packing ⟨7, 2⟩ ⟨9, 3⟩ (by decide) (by decide) (by decide)
      (by decide)).2.2⟩

/-! ## Open-flag validation (sysfs open_unsupported / file.go)

OpenFile and OpenFSFile reject `O_DIRECTORY` combined with a writable access
mode before dispatching to the backing open.  The backing open is a parameter
so that "does not dispatch" is expressed by quantifying over every backing
function.  Flag constants follow the Go syscall package; fsapi.O_DIRECTORY is
a placeholder bit disjoint from the access-mode bits. -/

def O_WRONLY : Nat := 1
def O_RDWR : Nat := 2

/-- Modelled from the spec: fsapi.O_DIRECTORY is defined outside src/ as a
placeholder flag bit distinct from the POSIX access-mode bits; only its
disjointness from O_WRONLY and O_RDWR matters here. -/
def O_DIRECTORY : Nat := 2 ^ 16

def dirWritableCombination (flag : Nat) : Bool :=
  flag &&& O_DIRECTORY != 0 && flag &&& (O_WRONLY ||| O_RDWR) != 0

def OpenFile {F : Type} (openBacking : String → Nat → Nat → Except Errno F)
    (path : String) (flag : Nat) (perm : Nat) : Except Errno F :=
  if dirWritableCombination flag then .error EISDIR
  else openBacking path flag perm

def OpenFSFile {F : Type} (fsOpen : String → Nat → Nat → Except Errno F)
    (path : String) (flag : Nat) (perm : Nat) : Except Errno F :=
  if dirWritableCombination flag then .error EISDIR
  else fsOpen path flag perm

/-- C5: whenever the flag has O_DIRECTORY together with O_WRONLY or O_RDWR,
OpenFile and OpenFSFile fail with EISDIR and no file, for every possible
backing filesystem (so the backing open is never consulted); any other flag
combination is passed through to the backing open unchanged. -/
theorem C5_open_directory_writable_rejected {F : Type}
    (openBacking fsOpen : String → Nat → Nat → Except Errno F)
    (path : String) (flag perm : Nat) :
    (flag &&& O_DIRECTORY ≠ 0 ∧ flag &&& (O_WRONLY ||| O_RDWR) ≠ 0 →
      OpenFile openBacking path flag perm = .error EISDIR ∧
      OpenFSFile fsOpen path flag perm = .error EISDIR) ∧
    (¬(flag &&& O_DIRECTORY ≠ 0 ∧ flag &&& (O_WRONLY ||| O_RDWR) ≠ 0) →
      OpenFile openBacking path flag perm = openBacking path flag perm ∧
      OpenFSFile fsOpen path flag perm = fsOpen path flag perm) := by
  constructor
  · intro ⟨h₁, h₂⟩
    have hc : dirWritableCombination flag = true := by
      simp [dirWritableCombination, h₁, h₂]
    constructor <;> simp [OpenFile, OpenFSFile, hc]
  · intro h
    have hc : dirWritableCombination flag = false := by
      simp only [dirWritableCombination, Bool.and_eq_true, bne_iff_ne, ne_eq,
        Bool.and_eq_false_iff] at *
      by_cases h₁ : flag &&& O_DIRECTORY = 0
      · left; simpa using h₁
      · right
        have h₂ := fun h₂ => h ⟨h₁, h₂⟩
        simpa using h₂
    constructor <;> simp [OpenFile, OpenFSFile, hc]

theorem C5_open_directory_writable_rejected_witness :
    ((2 ^ 16 + 1) &&& O_DIRECTORY ≠ 0 ∧ (2 ^ 16 + 1) &&& (O_WRONLY ||| O_RDWR) ≠ 0 →
      OpenFile (fun _ _ _ => (.ok 0 : Except Errno Nat)) "d" (2 ^ 16 + 1) 0 =
        .error EISDIR ∧
      OpenFSFile (fun _ _ _ => (.ok 0 : Except Errno Nat)) "d" (2 ^ 16 + 1) 0 =
        .error EISDIR) ∧
    (¬((2 ^ 16 + 1) &&& O_DIRECTORY ≠ 0 ∧
        (2 ^ 16 + 1) &&& (O_WRONLY ||| O_RDWR) ≠ 0) →
      OpenFile (fun _ _ _ => (.ok 0 : Except Errno Nat)) "d" (2 ^ 16 + 1) 0 =
        .ok 0 ∧
      OpenFSFile (fun _ _ _ => (.ok 0 : Except Errno Nat)) "d" (2 ^ 16 + 1) 0 =
        .ok 0) :=
  C5_open_directory_writable_rejected
    (fun _ _ _ => (.ok 0 : Except Errno Nat)) (fun _ _ _ => .ok 0) "d" (2 ^ 16 + 1) 0

/-! ## Close idempotence (sysfs fsFile.Close, tcpConnFile.close)

Both close paths guard on a closed flag: the first call flips the flag and
performs the underlying close (file.Close for fsFile, unless the wrapped file
is nil; Shutdown SHUT_RDWR for tcpConnFile); later calls return 0 without
touching the handle.  The effect on the handle is tracked as a call counter,
and the errno of the one underlying close is a parameter. -/

structure FsFileState where
  closed : Bool
  fileNil : Bool
  underlyingCloses : Nat
deriving DecidableEq, Repr

def fsFileClose (underlyingErrno : Errno) (s : FsFileState) : Errno × FsFileState :=
  if s.closed then (0, s)
  else
    let s₁ : FsFileState := { s with closed := true }
    if s₁.fileNil then (0, s₁)
    else (underlyingErrno, { s₁ with underlyingCloses := s₁.underlyingCloses + 1 })

structure TcpConnFileState where
  closed : Bool
  shutdowns : Nat
deriving DecidableEq, Repr

def tcpConnFileClose (shutdownErrno : Errno) (s : TcpConnFileState) :
    Errno × TcpConnFileState :=
  if s.closed then (0, s)
  else (shutdownErrno, { closed := true, shutdowns := s.shutdowns + 1 })

/-- C8: closing is idempotent and touches the underlying handle exactly once.
For an fsFile wrapping a real file and for a TCP connection file, both open:
the first Close performs exactly one underlying close/shutdown (reporting its
errno), and every later Close returns 0 leaving the state, and hence the
underlying handle, untouched. -/
theorem C8_close_idempotent (e₁ e₂ : Errno) (s : FsFileState) (t : TcpConnFileState)
    (hs : s.closed = false) (hf : s.fileNil = false) (ht : t.closed = false) :
    (fsFileClose e₁ s).1 = e₁ ∧
    (fsFileClose e₁ s).2.underlyingCloses = s.underlyingCloses + 1 ∧
    fsFileClose e₁ (fsFileClose e₁ s).2 = (0, (fsFileClose e₁ s).2) ∧
    (tcpConnFileClose e₂ t).1 = e₂ ∧
    (tcpConnFileClose e₂ t).2.shutdowns = t.shutdowns + 1 ∧
    tcpConnFileClose e₂ (tcpConnFileClose e₂ t).2 = (0, (tcpConnFileClose e₂ t).2) := by
  simp [fsFileClose, tcpConnFileClose, hs, hf, ht]

theorem C8_close_idempotent_witness :
    (⟨false, false, 0⟩ : FsFileState).closed = false ∧
    (fsFileClose 0 ⟨false, false, 0⟩).2.underlyingCloses = 1 ∧
    fsFileClose 0 (fsFileClose 0 ⟨false, false, 0⟩).2 =
      (0, (fsFileClose 0 ⟨false, false, 0⟩).2) ∧
    tcpConnFileClose 5 (tcpConnFileClose 5 ⟨false, 0⟩).2 =
      (0, (tcpConnFileClose 5 ⟨false, 0⟩).2) := by
  have h := C8_close_idempotent 0 5 ⟨false, false, 0⟩ ⟨false, 0⟩ rfl rfl rfl
  exact ⟨rfl, h.2.1, h.2.2.1, h.2.2.2.2.2⟩

/-! ## Pipe polling (sysfs select_windows / pollNamedPipes)

peekAllPipes makes a single pass over the pipe handles counting those with
data buffered and stopping at the first peek error.  pollNamedPipes with a
zero duration short-circuits to that single probe; otherwise it loops in a
select over the context-cancellation channel, the expiry timer (a channel
that exists only when the duration is non-nil) and a poll-interval ticker.
The select loop is embedded as a machine consuming a trace of channel
events; a nil timer channel never fires, so with a nil duration the timer
event leaves the loop waiting. -/

structure PipeHandle where
  bufferedBytes : Nat
  peekErrno : Errno
deriving DecidableEq, Repr

def peekAllPipes : List PipeHandle → Nat × Errno
  | [] => (0, 0)
  | h :: rest =>
    let ready := if h.bufferedBytes > 0 then 1 else 0
    if h.peekErrno ≠ 0 then (ready, h.peekErrno)
    else
      let (n, e) := peekAllPipes rest
      (ready + n, e)

inductive PollEvent where
  | ctxDone
  | timerExpired
  | tick
deriving DecidableEq, Repr

def pollSelectLoop (pipes : List PipeHandle) (hasTimer : Bool) :
    List PollEvent → Option (Nat × Errno)
  | [] => none
  | e :: rest =>
    match e with
    | .ctxDone => some (0, 0)
    | .timerExpired =>
      if hasTimer then some (0, 0) else pollSelectLoop pipes hasTimer rest
    | .tick => some (peekAllPipes pipes)

def pollNamedPipes (pipes : List PipeHandle) (duration : Option Nat)
    (events : List PollEvent) : Option (Nat × Errno) :=
  if duration = some 0 then some (peekAllPipes pipes)
  else pollSelectLoop pipes duration.isSome events

/-- C9: a zero timeout probes readiness exactly once and returns immediately
(the result is the single peekAllPipes pass, whatever happens on the event
channels afterwards), while a nil timeout enters the wait loop with no expiry
timer: any result it ever produces comes either from a readiness probe at a
poll-interval tick or from cancellation of the context, never from a timer. -/
theorem C9_poll_zero_vs_nil_timeout (pipes : List PipeHandle)
    (events : List PollEvent) (r : Nat × Errno) :
    pollNamedPipes pipes (some 0) events = some (peekAllPipes pipes) ∧
    (pollNamedPipes pipes none events = some r →
      r = (0, 0) ∨ r = peekAllPipes pipes) := by
  constructor
  · simp [pollNamedPipes]
  · rw [pollNamedPipes]
    simp only [Option.isSome_none, reduceIte]
    induction events with
    | nil => intro h; simp [pollSelectLoop] at h
    | cons e rest ih =>
      intro h
      cases e with
      | ctxDone =>
        rw [pollSelectLoop] at h
        simp at h
        exact Or.inl h.symm
      | timerExpired =>
        rw [pollSelectLoop] at h
        simp at h
        exact ih h
      | tick =>
        rw [pollSelectLoop] at h
        simp at h
        exact Or.inr h.symm

theorem C9_poll_zero_vs_nil_timeout_witness :
    pollNamedPipes [⟨3, 0⟩] (some 0) [PollEvent.timerExpired] =
      some (peekAllPipes [⟨3, 0⟩]) ∧
    (pollNamedPipes [⟨3, 0⟩] none [PollEvent.timerExpired] = some (1, 0) →
      (1, 0) = ((0, 0) : Nat × Errno) ∨ (1, 0) = peekAllPipes [⟨3, 0⟩]) :=
  ⟨(C9_poll_zero_vs_nil_timeout [⟨3, 0⟩] [PollEvent.timerExpired] (1, 0)).1,
   (C9_poll_zero_vs_nil_timeout [⟨3, 0⟩] [PollEvent.timerExpired] (1, 0)).2⟩

/-! ## FSContext.Renumber (sys FSContext)

The descriptor table maps int32 file descriptors to file entries.  Renumber
moves the entry at one descriptor to another: EBADF when the source is not
open or the target is negative, ENOTSUP when either side is a pre-open,
otherwise it closes whatever is open at the target, deletes the source and
inserts the entry at the target.  The close performed on the displaced entry
is reported in the result. -/

structure FileEntry where
  name : String
  isPreopen : Bool
deriving DecidableEq, Repr

/-- Modelled from the spec: descriptor.Table (internal/descriptor) is not
under src/; the spec describes it as a dense integer-indexed table of file
entries.  Lookup, Delete and InsertAt are modelled on an association list
keyed by the descriptor number. -/
def FileTable := List (Int × FileEntry)

def tableLookup : List (Int × FileEntry) → Int → Option FileEntry
  | [], _ => none
  | (k, e) :: rest, fd => if k = fd then some e else tableLookup rest fd

def tableDelete : List (Int × FileEntry) → Int → List (Int × FileEntry)
  | [], _ => []
  | (k, e) :: rest, fd =>
    if k = fd then tableDelete rest fd else (k, e) :: tableDelete rest fd

def tableInsertAt (t : List (Int × FileEntry)) (fd : Int) (e : FileEntry) :
    List (Int × FileEntry) :=
  (fd, e) :: tableDelete t fd

structure RenumberResult where
  errno : Errno
  table : List (Int × FileEntry)
  closedEntry : Option FileEntry
deriving DecidableEq, Repr

def Renumber (t : List (Int × FileEntry)) (fdFrom fdTo : Int) : RenumberResult :=
  match tableLookup t fdFrom with
  | none => ⟨EBADF, t, none⟩
  | some fromFile =>
    if fdTo < 0 then ⟨EBADF, t, none⟩
    else if fromFile.isPreopen then ⟨ENOTSUP, t, none⟩
    else
      match tableLookup t fdTo with
      | some toFile =>
        if toFile.isPreopen then ⟨ENOTSUP, t, none⟩
        else ⟨0, tableInsertAt (tableDelete t fdFrom) fdTo fromFile, some toFile⟩
      | none => ⟨0, tableInsertAt (tableDelete t fdFrom) fdTo fromFile, none⟩

theorem tableLookup_delete_ne (t : List (Int × FileEntry)) (fd fd₂ : Int)
    (h : fd ≠ fd₂) : tableLookup (tableDelete t fd₂) fd = tableLookup t fd := by
  induction t with
  | nil => rfl
  | cons p rest ih =>
    obtain ⟨k, e⟩ := p
    by_cases hk : k = fd₂
    · simp [tableDelete, tableLookup, hk, ih, Ne.symm h]
    · by_cases hk₂ : k = fd <;>
        simp [tableDelete, tableLookup, hk, hk₂, ih, h, Ne.symm h]

theorem tableLookup_delete_self (t : List (Int × FileEntry)) (fd : Int) :
    tableLookup (tableDelete t fd) fd = none := by
  induction t with
  | nil => rfl
  | cons p rest ih =>
    obtain ⟨k, e⟩ := p
    by_cases hk : k = fd <;> simp [tableDelete, tableLookup, hk, ih]

/-- C10 counterexample: the claim fails when the two descriptors coincide.
Renumbering an open non-pre-open descriptor onto itself returns 0 and closes
the entry, but afterwards the source descriptor still resolves (to the moved
entry), contradicting the claim that from no longer resolves. -/
theorem C10_renumber_counterexample :
    (Renumber [(4, ⟨"f", false⟩)] 4 4).errno = 0 ∧
    tableLookup (Renumber [(4, ⟨"f", false⟩)] 4 4).table 4 ≠ none := by
  decide

/-- C10 amended: Renumber returns EBADF when the source descriptor is not
open or the target is negative; ENOTSUP when the source entry is a pre-open,
or the target is open and a pre-open; otherwise it closes whatever entry is
open at the target, removes the source entry and inserts it at the target,
returning 0, after which the target resolves to the moved entry and — when
the two descriptors differ — the source no longer resolves (when they are
equal the descriptor still resolves to the now-closed entry). -/
theorem C10_renumber_amended (t : List (Int × FileEntry)) (a b : Int) :
    ((tableLookup t a = none ∨ b < 0) → Renumber t a b = ⟨EBADF, t, none⟩) ∧
    (∀ e, tableLookup t a = some e → ¬b < 0 → e.isPreopen = true →
      Renumber t a b = ⟨ENOTSUP, t, none⟩) ∧
    (∀ e e₂, tableLookup t a = some e → ¬b < 0 → e.isPreopen = false →
      tableLookup t b = some e₂ → e₂.isPreopen = true →
      Renumber t a b = ⟨ENOTSUP, t, none⟩) ∧
    (∀ e, tableLookup t a = some e → ¬b < 0 → e.isPreopen = false →
      (∀ e₂, tableLookup t b = some e₂ → e₂.isPreopen = false) →
      (Renumber t a b).errno = 0 ∧
      (Renumber t a b).closedEntry = tableLookup t b ∧
      (Renumber t a b).table = tableInsertAt (tableDelete t a) b e ∧
      tableLookup (Renumber t a b).table b = some e ∧
      (a ≠ b → tableLookup (Renumber t a b).table a = none)) := by
  refine ⟨?_, ?_, ?_, ?_⟩
  · rintro (h | h)
    · simp [Renumber, h]
    · cases ht : tableLookup t a <;> simp [Renumber, ht, h]
  · intro e he hb hp
    simp [Renumber, he, hb, hp]
  · intro e e₂ he hb hp he₂ hp₂
    simp [Renumber, he, hb, hp, he₂, hp₂]
  · intro e he hb hp hall
    have hres : (Renumber t a b).errno = 0 ∧
        (Renumber t a b).closedEntry = tableLookup t b ∧
        (Renumber t a b).table = tableInsertAt (tableDelete t a) b e := by
      cases hbt : tableLookup t b with
      | none => simp [Renumber, he, hb, hp, hbt]
      | some e₂ =>
        have := hall e₂ hbt
        simp [Renumber, he, hb, hp, hbt, this]
    refine ⟨hres.1, hres.2.1, hres.2.2, ?_, ?_⟩
    · rw [hres.2.2]
      simp [tableInsertAt, tableLookup]
    · intro hab
      rw [hres.2.2]
      simp only [tableInsertAt, tableLookup, if_neg (fun hh : b = a => hab hh.symm)]
      rw [tableLookup_delete_ne _ _ _ hab, tableLookup_delete_self]

theorem C10_renumber_amended_witness :
    tableLookup [(4, ⟨"f", false⟩)] 4 = some ⟨"f", false⟩ ∧
    (Renumber [(4, ⟨"f", false⟩)] 4 7).errno = 0 ∧
    (Renumber [(4, ⟨"f", false⟩)] 4 7).closedEntry =
      tableLookup [(4, ⟨"f", false⟩)] 7 ∧
    tableLookup (Renumber [(4, ⟨"f", false⟩)] 4 7).table 7 = some ⟨"f", false⟩ ∧
    tableLookup (Renumber [(4, ⟨"f", false⟩)] 4 7).table 4 = none := by
  have h := (C10_renumber_amended [(4, ⟨"f", false⟩)] 4 7).2.2.2
    ⟨"f", false⟩ (by decide) (by decide) (by decide)
    (by intro e₂ he₂; simp [tableLookup] at he₂)
  exact ⟨by decide, h.1, h.2.1, h.2.2.2.1, h.2.2.2.2 (by decide)⟩

/-! ## Readdir cursors (sysfs file.go: sliceReaddir, windowedReaddir,
concatReaddir; sys FSContext: LookupReaddir, dotDirents)

Dirents carry a name, inode and the fs.FileMode type bits.  sliceReaddir
iterates a fixed slice; windowedReaddir iterates lazily over a sliding
window of direntBufSize entries fetched from the underlying OS directory
stream; concatReaddir chains two cursors.  Cursor counters are uint64 in
Go, modelled with an explicit wrap at 2^64 on increment. -/

structure Dirent where
  name : String
  ino : Nat
  typ : Nat
deriving DecidableEq, Repr

def ModeDir : Nat := 2 ^ 31

def uint64OfInt64 (x : Int) : Nat := (x % (2 : Int) ^ 64).toNat

def int64OfUint64 (n : Nat) : Int :=
  if n < 2 ^ 63 then (n : Int) else (n : Int) - 2 ^ 64

def goIntDiv (x y : Int) : Int := Int.tdiv x y

structure SliceRD where
  cursor : Nat
  dirents : List Dirent
deriving DecidableEq, Repr

def SliceRD.cookie (s : SliceRD) : Nat := s.cursor

def SliceRD.peek (s : SliceRD) : Except Errno Dirent :=
  if s.dirents.length ≤ s.cursor then .error ENOENT
  else .ok (s.dirents.getD s.cursor ⟨"", 0, 0⟩)

def SliceRD.advance (s : SliceRD) : Errno × SliceRD :=
  if s.cursor = s.dirents.length then (ENOENT, s)
  else (0, { s with cursor := (s.cursor + 1) % 2 ^ 64 })

def SliceRD.rewind (s : SliceRD) (cookie : Int) : Errno × SliceRD :=
  let unsignedCookie := uint64OfInt64 cookie
  if cookie < 0 ∨ s.cursor < unsignedCookie then (EINVAL, s)
  else if cookie = 0 ∧ s.cursor = 0 then (0, s)
  else if cookie = 0 then (0, { s with cursor := 0 })
  else if unsignedCookie < s.cursor then (0, { s with cursor := unsignedCookie })
  else (0, s)

def direntBufSize : Nat := 16

/-- Modelled from the spec (in part): the fetch closure built in readdir0
reads the next n entries from the OS directory stream via os.File.Readdir;
the OS stream and the errno translation of its end-of-directory error are
outside src/.  The stream is a position into the full listing; a read of
n > 0 entries that yields nothing reports eofErrno.  No theorem below
depends on the value of eofErrno. -/
def eofErrno : Errno := ENOENT

def fetchWindow (dir : List Dirent) (pos n : Nat) :
    Except Errno (SliceRD × Nat) :=
  let taken := (dir.drop pos).take n
  if taken.length = 0 ∧ 0 < n then .error eofErrno
  else .ok (⟨0, taken⟩, pos + taken.length)

structure WindowedRD where
  cursor : Nat
  window : SliceRD
  pos : Nat
  dir : List Dirent
deriving DecidableEq, Repr

def WindowedRD.cookie (d : WindowedRD) : Nat := d.cursor

def WindowedRD.resetW (d : WindowedRD) : Errno × WindowedRD :=
  let d₀ : WindowedRD := { d with cursor := 0, pos := 0 }
  match fetchWindow d.dir 0 direntBufSize with
  | .error e => (e, d₀)
  | .ok (w, newPos) => (0, { d₀ with window := w, pos := newPos })

/-- Advance as in windowedReaddir.Advance: an exhausted window triggers a
fetch of the next window and returns the fetch status without incrementing
the cursor.  On a fetch error Go assigns the nil fetch result to the window
(later calls would dereference nil); the model substitutes an empty window
and no theorem depends on the state after a failed fetch. -/
def WindowedRD.advanceW (d : WindowedRD) : Errno × WindowedRD :=
  let (e, w) := d.window.advance
  if e = ENOENT then
    match fetchWindow d.dir d.pos direntBufSize with
    | .error e₂ => (e₂, { d with window := ⟨0, []⟩ })
    | .ok (w₂, newPos) => (0, { d with window := w₂, pos := newPos })
  else if e ≠ 0 then (e, { d with window := w })
  else (0, { d with window := w, cursor := (d.cursor + 1) % 2 ^ 64 })

def WindowedRD.peekW (d : WindowedRD) : Except Errno Dirent × WindowedRD :=
  match d.window.peek with
  | .error e =>
    if e = ENOENT then
      match fetchWindow d.dir d.pos direntBufSize with
      | .error e₂ => (.error e₂, d)
      | .ok (w₂, newPos) =>
        let d₂ : WindowedRD := { d with window := w₂, pos := newPos }
        (d₂.window.peek, d₂)
    else (.error e, d)
  | .ok x => (.ok x, d)

def WindowedRD.rewindW (d : WindowedRD) (cookie : Int) : Errno × WindowedRD :=
  let unsignedCookie := uint64OfInt64 cookie
  if cookie < 0 ∨ d.cursor < unsignedCookie then (EINVAL, d)
  else if cookie = 0 then d.resetW
  else if unsignedCookie < d.cursor then
    if goIntDiv cookie (direntBufSize : Int) ≠
        goIntDiv (int64OfUint64 d.cursor) (direntBufSize : Int) then (ENOSYS, d)
    else
      let d₂ : WindowedRD := { d with cursor := unsignedCookie }
      let (e, w₂) := d₂.window.rewind ((unsignedCookie % direntBufSize : Nat) : Int)
      (e, { d₂ with window := w₂ })
  else (0, d)

def WindowedRD.advanceN : Nat → WindowedRD → WindowedRD
  | 0, d => d
  | n + 1, d => WindowedRD.advanceN n d.advanceW.2

def dir17 : List Dirent := (List.range 17).map (fun i => ⟨"e", i, 0⟩)

def w17 : WindowedRD := (WindowedRD.resetW ⟨0, ⟨0, []⟩, 0, dir17⟩).2

def s16 : WindowedRD := WindowedRD.advanceN 16 w17

/-- C3 counterexample: over a 17-entry directory, after a reset and sixteen
successful Advance calls the cursor sits at the direntBufSize window
boundary.  The next Advance triggers the fetch of the next window and
returns 0, yet the cookie observed afterwards equals the cookie observed
before, so it is not strictly greater as the claim requires. -/
theorem C3_cookie_advance_counterexample :
    s16.cookie = 16 ∧ s16.window.cursor = direntBufSize ∧
    s16.advanceW.1 = 0 ∧ s16.advanceW.2.cookie = s16.cookie ∧
    ¬s16.cookie < s16.advanceW.2.cookie := by
  decide

/-- C3 amended: the cookie strictly increases (by exactly one) after every
Advance that returns 0 while the window still has an entry to consume
(assuming the uint64 cursor does not wrap); an Advance that finds the window
exhausted instead fetches the next window, returns the fetch status, and
leaves the cookie unchanged, so the strict increase is observed on the
following Advance rather than on the boundary-crossing one. -/
theorem C3_cookie_advance_amended (d : WindowedRD) :
    (d.window.cursor ≠ d.window.dirents.length → d.cursor + 1 < 2 ^ 64 →
      d.advanceW.1 = 0 ∧ d.advanceW.2.cookie = d.cookie + 1 ∧
      d.cookie < d.advanceW.2.cookie) ∧
    (d.window.cursor = d.window.dirents.length →
      d.advanceW.2.cookie = d.cookie) := by
  constructor
  · intro h₁ h₂
    simp only [WindowedRD.advanceW, SliceRD.advance, if_neg h₁]
    simp [WindowedRD.cookie, ENOENT]
    omega
  · intro h₁
    simp only [WindowedRD.advanceW, SliceRD.advance, if_pos h₁]
    cases hf : fetchWindow d.dir d.pos direntBufSize <;>
      simp [WindowedRD.cookie, hf]

theorem C3_cookie_advance_amended_witness :
    (w17.advanceW.1 = 0 ∧ w17.advanceW.2.cookie = w17.cookie + 1 ∧
      w17.cookie < w17.advanceW.2.cookie) ∧
    s16.advanceW.2.cookie = s16.cookie := by
  have h₁ := (C3_cookie_advance_amended w17).1 (by decide) (by decide)
  have h₂ := (C3_cookie_advance_amended s16).2 (by decide)
  exact ⟨h₁, h₂⟩

theorem uint64OfInt64_ofNat (m : Nat) (h : m < 2 ^ 64) :
    uint64OfInt64 (m : Int) = m := by
  have hlt : (m : Int) < (2 : Int) ^ 64 := by exact_mod_cast h
  unfold uint64OfInt64
  rw [Int.emod_eq_of_lt (Int.natCast_nonneg m) hlt]
  simp

theorem int64OfUint64_small (n : Nat) (h : n < 2 ^ 63) :
    int64OfUint64 n = (n : Int) := by
  unfold int64OfUint64
  rw [if_pos h]

theorem goIntDiv_ofNat (m n : Nat) :
    goIntDiv (m : Int) (n : Int) = ((m / n : Nat) : Int) := rfl

theorem sliceRewind_le (s : SliceRD) (k : Nat) (h64 : k < 2 ^ 64)
    (hk : k ≤ s.cursor) :
    s.rewind (k : Int) = (0, { s with cursor := k }) := by
  simp only [SliceRD.rewind, uint64OfInt64_ofNat k h64]
  split_ifs with h₁ h₂ h₃ h₄
  · exfalso
    rcases h₁ with h | h
    · exact absurd h (Int.natCast_nonneg k).not_lt
    · omega
  · obtain ⟨hk0, hc0⟩ := h₂
    have hkk : k = 0 := by exact_mod_cast hk0
    subst hkk
    cases s with
    | mk c l => simp_all
  · have hkk : k = 0 := by exact_mod_cast h₃
    subst hkk
    rfl
  · rfl
  · have hkk : k = s.cursor := by omega
    subst hkk
    rfl

theorem resetW_success (d : WindowedRD) (hdir : d.dir ≠ []) :
    (d.resetW).1 = 0 ∧ (d.resetW).2.cursor = 0 := by
  simp [WindowedRD.resetW, fetchWindow, hdir, direntBufSize]

/-- C4: Rewind(cookie) on a windowed readdir cursor at position c returns
EINVAL exactly when cookie is negative or greater than c; Rewind(0) performs
a full Reset and succeeds; for 0 < cookie < c it succeeds, setting the
position to cookie, when cookie lies in the current direntBufSize window,
and fails with ENOSYS when it points into an earlier window; Rewind(c)
succeeds leaving the cursor unchanged.  The hypotheses pin the int64/uint64
values inside machine range, require the window to be consistent with the
cursor (which holds for states produced by Reset, Peek and Advance), and a
nonempty directory (the constructor refuses to build a cursor otherwise). -/
theorem C4_rewind_windows (d : WindowedRD) (cookie : Int)
    (hc : d.cursor < 2 ^ 63) (hck : cookie < 2 ^ 63)
    (hinv : d.window.cursor = d.cursor % direntBufSize ∨
      (d.window.cursor = d.window.dirents.length ∧ d.cursor % direntBufSize = 0))
    (hdir : d.dir ≠ []) :
    ((d.rewindW cookie).1 = EINVAL ↔ cookie < 0 ∨ (d.cursor : Int) < cookie) ∧
    (cookie = 0 →
      d.rewindW cookie = d.resetW ∧ (d.resetW).1 = 0 ∧ (d.resetW).2.cursor = 0) ∧
    (0 < cookie → cookie < (d.cursor : Int) →
      (cookie.toNat / direntBufSize = d.cursor / direntBufSize →
        (d.rewindW cookie).1 = 0 ∧ (d.rewindW cookie).2.cursor = cookie.toNat) ∧
      (cookie.toNat / direntBufSize ≠ d.cursor / direntBufSize →
        d.rewindW cookie = (ENOSYS, d))) ∧
    (cookie = (d.cursor : Int) → 0 < cookie → d.rewindW cookie = (0, d)) := by
  rcases Int.lt_or_le cookie 0 with hneg | hpos
  · have hres : d.rewindW cookie = (EINVAL, d) := by
      unfold WindowedRD.rewindW
      rw [if_pos (Or.inl hneg)]
    refine ⟨?_, ?_, ?_, ?_⟩
    · constructor
      · intro _
        exact Or.inl hneg
      · intro _
        rw [hres]
    · intro h0
      exact absurd h0 (by omega)
    · intro h1 _
      exact absurd h1 (by omega)
    · intro _ h1
      exact absurd h1 (by omega)
  · obtain ⟨m, rfl⟩ := Int.eq_ofNat_of_zero_le hpos
    have hm63 : m < 2 ^ 63 := by exact_mod_cast hck
    have hm64 : m < 2 ^ 64 := by omega
    by_cases hgt : d.cursor < m
    · have hres : d.rewindW (m : Int) = (EINVAL, d) := by
        simp only [WindowedRD.rewindW, uint64OfInt64_ofNat m hm64]
        rw [if_pos (Or.inr hgt)]
      refine ⟨?_, ?_, ?_, ?_⟩
      · constructor
        · intro _
          right
          exact_mod_cast hgt
        · intro _
          rw [hres]
      · intro h0
        have hm0 : m = 0 := by exact_mod_cast h0
        omega
      · intro _ h2
        have hlt : m < d.cursor := by exact_mod_cast h2
        omega
      · intro heq _
        have hmc : m = d.cursor := by exact_mod_cast heq
        omega
    · push_neg at hgt
      have hg₁ : ¬(((m : Nat) : Int) < 0 ∨ d.cursor < m) := by
        push_neg
        exact ⟨Int.natCast_nonneg m, hgt⟩
      by_cases hm0 : m = 0
      · subst hm0
        have hres : d.rewindW ((0 : Nat) : Int) = d.resetW := by
          simp only [WindowedRD.rewindW, uint64OfInt64_ofNat 0 hm64]
          rw [if_neg hg₁, if_pos (by simp : (((0 : Nat) : Int) = 0))]
        have hr := resetW_success d hdir
        refine ⟨?_, ?_, ?_, ?_⟩
        · rw [hres]
          constructor
          · intro h
            rw [hr.1] at h
            simp [EINVAL] at h
          · intro h
            rcases h with h | h
            · exact absurd h (by simp)
            · exact absurd h (by
                simp only [Nat.cast_zero]
                exact (Int.natCast_nonneg d.cursor).not_lt)
        · intro _
          exact ⟨hres, hr.1, hr.2⟩
        · intro h1 _
          exact absurd h1 (by simp)
        · intro _ h1
          exact absurd h1 (by simp)
      · have hm0p : 0 < m := Nat.pos_of_ne_zero hm0
        have hg₂ : ¬(((m : Nat) : Int) = 0) := by exact_mod_cast hm0
        by_cases hmeq : m = d.cursor
        · have hg₃ : ¬(m < d.cursor) := by omega
          have hres : d.rewindW (m : Int) = (0, d) := by
            simp only [WindowedRD.rewindW, uint64OfInt64_ofNat m hm64]
            rw [if_neg hg₁, if_neg hg₂, if_neg hg₃]
          refine ⟨?_, ?_, ?_, ?_⟩
          · constructor
            · intro h
              rw [hres] at h
              simp [EINVAL] at h
            · intro h
              exfalso
              rcases h with h | h
              · exact absurd h (Int.natCast_nonneg m).not_lt
              · have : d.cursor < m := by exact_mod_cast h
                omega
          · intro h0
            exact absurd h0 hg₂
          · intro _ h2
            have : m < d.cursor := by exact_mod_cast h2
            omega
          · intro _ _
            exact hres
        · have hlt : m < d.cursor := by omega
          have hd16 : direntBufSize = 16 := rfl
          have hdivrw : goIntDiv (int64OfUint64 d.cursor) ((direntBufSize : Nat) : Int) =
              ((d.cursor / direntBufSize : Nat) : Int) := by
            rw [int64OfUint64_small d.cursor hc, goIntDiv_ofNat]
          by_cases hwin : m / direntBufSize = d.cursor / direntBufSize
          · have hkle : m % direntBufSize ≤ d.window.cursor := by
              rcases hinv with h | ⟨h₁, h₂⟩
              · rw [h, hd16]
                rw [hd16] at hwin
                omega
              · rw [hd16] at hwin h₂ ⊢
                omega
            have hdivne : ¬(goIntDiv ((m : Nat) : Int) ((direntBufSize : Nat) : Int) ≠
                goIntDiv (int64OfUint64 d.cursor) ((direntBufSize : Nat) : Int)) := by
              rw [hdivrw, goIntDiv_ofNat]
              simp only [ne_eq, Nat.cast_inj, not_not]
              exact hwin
            have hsl := sliceRewind_le d.window (m % direntBufSize)
              (by rw [hd16]; omega) hkle
            have hres : (d.rewindW (m : Int)).1 = 0 ∧
                (d.rewindW (m : Int)).2.cursor = m := by
              simp only [WindowedRD.rewindW, uint64OfInt64_ofNat m hm64]
              rw [if_neg hg₁, if_neg hg₂, if_pos hlt, if_neg hdivne]
              simp only [hsl]
              simp
            refine ⟨?_, ?_, ?_, ?_⟩
            · constructor
              · intro h
                rw [hres.1] at h
                simp [EINVAL] at h
              · intro h
                exfalso
                rcases h with h | h
                · exact absurd h (Int.natCast_nonneg m).not_lt
                · have : d.cursor < m := by exact_mod_cast h
                  omega
            · intro h0
              exact absurd h0 hg₂
            · intro _ _
              constructor
              · intro _
                simpa using hres
              · intro hne
                exfalso
                simp only [Int.toNat_natCast] at hne
                exact hne hwin
            · intro heq _
              have : m = d.cursor := by exact_mod_cast heq
              omega
          · have hdivne : goIntDiv ((m : Nat) : Int) ((direntBufSize : Nat) : Int) ≠
                goIntDiv (int64OfUint64 d.cursor) ((direntBufSize : Nat) : Int) := by
              rw [hdivrw, goIntDiv_ofNat]
              simp only [ne_eq, Nat.cast_inj]
              exact hwin
            have hres : d.rewindW (m : Int) = (ENOSYS, d) := by
              simp only [WindowedRD.rewindW, uint64OfInt64_ofNat m hm64]
              rw [if_neg hg₁, if_neg hg₂, if_pos hlt, if_pos hdivne]
            refine ⟨?_, ?_, ?_, ?_⟩
            · constructor
              · intro h
                rw [hres] at h
                simp [ENOSYS, EINVAL] at h
              · intro h
                exfalso
                rcases h with h | h
                · exact absurd h (Int.natCast_nonneg m).not_lt
                · have : d.cursor < m := by exact_mod_cast h
                  omega
            · intro h0
              exact absurd h0 hg₂
            · intro _ _
              constructor
              · intro hsame
                exfalso
                simp only [Int.toNat_natCast] at hsame
                exact hwin hsame
              · intro _
                exact hres
            · intro heq _
              have : m = d.cursor := by exact_mod_cast heq
              omega

theorem C4_rewind_windows_witness :
    (((WindowedRD.advanceN 5 w17).rewindW 3).1 = EINVAL ↔
      (3 : Int) < 0 ∨ ((WindowedRD.advanceN 5 w17).cursor : Int) < 3) ∧
    ((WindowedRD.advanceN 5 w17).rewindW 3).1 = 0 ∧
    ((WindowedRD.advanceN 5 w17).rewindW 3).2.cursor = (3 : Int).toNat := by
  have h := C4_rewind_windows (WindowedRD.advanceN 5 w17) 3 (by decide) (by decide)
    (by decide) (by decide)
  exact ⟨h.1, (h.2.2.1 (by decide) (by decide)).1 (by decide)⟩

/-! ## Concatenated cursors and FSContext.LookupReaddir

concatReaddir chains two cursors, switching permanently to the second one
when the first reports an error on Peek or Advance.  LookupReaddir, on the
first call for a directory descriptor, builds the underlying listing cursor,
prepends the synthetic "." and ".." entries computed by dotDirents, and
returns the concatenation.  Cursors are represented by a deep type closed
under slices and concatenation, covering the cursors this path builds. -/

inductive RD where
  | sl (s : SliceRD)
  | cat (first second : RD) (curSecond : Bool)
deriving DecidableEq, Repr

def RD.peek : RD → Except Errno Dirent × RD
  | .sl s => (s.peek, .sl s)
  | .cat f s cur =>
    if cur then
      match s.peek with
      | (r, s₂) => (r, .cat f s₂ true)
    else
      match f.peek with
      | (.ok d, f₂) => (.ok d, .cat f₂ s cur)
      | (.error _, f₂) =>
        match s.peek with
        | (r₂, s₂) => (r₂, .cat f₂ s₂ true)

def RD.advance : RD → Errno × RD
  | .sl s =>
    match s.advance with
    | (e, s₂) => (e, .sl s₂)
  | .cat f s cur =>
    if cur then
      match s.advance with
      | (e, s₂) => (e, .cat f s₂ true)
    else
      match f.advance with
      | (e, f₂) =>
        if e ≠ 0 then
          match s.advance with
          | (e₂, s₂) => (e₂, .cat f₂ s₂ true)
        else (0, .cat f₂ s cur)

/-- Drain a cursor through the Peek-then-Advance discipline used by the WASI
fd_readdir driver, stopping at the first Peek error. -/
def RD.drain : Nat → RD → List Dirent
  | 0, _ => []
  | fuel + 1, r =>
    match r.peek with
    | (.ok d, r₂) => d :: RD.drain fuel r₂.advance.2
    | (.error _, _) => []

theorem drain_sl (l : List Dirent) (hlen : l.length < 2 ^ 64) :
    ∀ fuel c, l.length - c < fuel → RD.drain fuel (RD.sl ⟨c, l⟩) = l.drop c := by
  intro fuel
  induction fuel with
  | zero => intro c h; omega
  | succ n ih =>
    intro c h
    by_cases hc : c < l.length
    · have hpk : SliceRD.peek ⟨c, l⟩ = .ok l[c] := by
        simp [SliceRD.peek, Nat.not_le.mpr hc, List.getElem?_eq_getElem hc]
      have hadv : SliceRD.advance ⟨c, l⟩ = (0, ⟨c + 1, l⟩) := by
        have hm : (c + 1) % 2 ^ 64 = c + 1 := Nat.mod_eq_of_lt (by omega)
        simp only [SliceRD.advance]
        rw [if_neg (by omega : ¬c = l.length), hm]
      rw [RD.drain]
      simp only [RD.peek, hpk]
      simp only [RD.advance, hadv]
      rw [ih (c + 1) (by omega), List.drop_eq_getElem_cons hc]
    · have hpk : SliceRD.peek ⟨c, l⟩ = .error ENOENT := by
        simp [SliceRD.peek, Nat.le_of_not_lt hc]
      rw [RD.drain]
      simp only [RD.peek, hpk]
      rw [List.drop_eq_nil_of_le (Nat.le_of_not_lt hc)]

theorem drain_cat_second (x : RD) (l : List Dirent) (hlen : l.length < 2 ^ 64) :
    ∀ fuel c, l.length - c < fuel →
      RD.drain fuel (RD.cat x (RD.sl ⟨c, l⟩) true) = l.drop c := by
  intro fuel
  induction fuel with
  | zero => intro c h; omega
  | succ n ih =>
    intro c h
    by_cases hc : c < l.length
    · have hpk : SliceRD.peek ⟨c, l⟩ = .ok l[c] := by
        simp [SliceRD.peek, Nat.not_le.mpr hc, List.getElem?_eq_getElem hc]
      have hadv : SliceRD.advance ⟨c, l⟩ = (0, ⟨c + 1, l⟩) := by
        have hm : (c + 1) % 2 ^ 64 = c + 1 := Nat.mod_eq_of_lt (by omega)
        simp only [SliceRD.advance]
        rw [if_neg (by omega : ¬c = l.length), hm]
      rw [RD.drain]
      simp only [RD.peek, RD.advance, if_true, hpk, hadv]
      rw [ih (c + 1) (by omega), List.drop_eq_getElem_cons hc]
    · have hpk : SliceRD.peek ⟨c, l⟩ = .error ENOENT := by
        simp [SliceRD.peek, Nat.le_of_not_lt hc]
      rw [RD.drain]
      simp only [RD.peek, if_true, hpk]
      rw [List.drop_eq_nil_of_le (Nat.le_of_not_lt hc)]

theorem drain_cat_sl (l₁ l₂ : List Dirent)
    (hlen₁ : l₁.length < 2 ^ 64) (hlen₂ : l₂.length < 2 ^ 64) :
    ∀ fuel c₁ c₂, (l₁.length - c₁) + (l₂.length - c₂) < fuel →
      RD.drain fuel (RD.cat (RD.sl ⟨c₁, l₁⟩) (RD.sl ⟨c₂, l₂⟩) false) =
        l₁.drop c₁ ++ l₂.drop c₂ := by
  intro fuel
  induction fuel with
  | zero => intro c₁ c₂ h; omega
  | succ n ih =>
    intro c₁ c₂ h
    by_cases hc₁ : c₁ < l₁.length
    · have hpk : SliceRD.peek ⟨c₁, l₁⟩ = .ok l₁[c₁] := by
        simp [SliceRD.peek, Nat.not_le.mpr hc₁, List.getElem?_eq_getElem hc₁]
      have hadv : SliceRD.advance ⟨c₁, l₁⟩ = (0, ⟨c₁ + 1, l₁⟩) := by
        have hm : (c₁ + 1) % 2 ^ 64 = c₁ + 1 := Nat.mod_eq_of_lt (by omega)
        simp only [SliceRD.advance]
        rw [if_neg (by omega : ¬c₁ = l₁.length), hm]
      rw [RD.drain]
      simp only [RD.peek, RD.advance, Bool.false_eq_true, if_false, hpk, hadv,
        ne_eq, not_true_eq_false, reduceIte]
      rw [ih (c₁ + 1) c₂ (by omega), List.drop_eq_getElem_cons hc₁]
      rfl
    · have hpk₁ : SliceRD.peek ⟨c₁, l₁⟩ = .error ENOENT := by
        simp [SliceRD.peek, Nat.le_of_not_lt hc₁]
      rw [List.drop_eq_nil_of_le (Nat.le_of_not_lt hc₁), List.nil_append]
      by_cases hc₂ : c₂ < l₂.length
      · have hpk₂ : SliceRD.peek ⟨c₂, l₂⟩ = .ok l₂[c₂] := by
          simp [SliceRD.peek, Nat.not_le.mpr hc₂, List.getElem?_eq_getElem hc₂]
        have hadv : SliceRD.advance ⟨c₂, l₂⟩ = (0, ⟨c₂ + 1, l₂⟩) := by
          have hm : (c₂ + 1) % 2 ^ 64 = c₂ + 1 := Nat.mod_eq_of_lt (by omega)
          simp only [SliceRD.advance]
          rw [if_neg (by omega : ¬c₂ = l₂.length), hm]
        rw [RD.drain]
        simp only [RD.peek, RD.advance, Bool.false_eq_true, if_false, if_true,
          hpk₁, hpk₂, hadv]
        rw [drain_cat_second _ l₂ hlen₂ n (c₂ + 1) (by omega),
          List.drop_eq_getElem_cons hc₂]
      · have hpk₂ : SliceRD.peek ⟨c₂, l₂⟩ = .error ENOENT := by
          simp [SliceRD.peek, Nat.le_of_not_lt hc₂]
        rw [RD.drain]
        simp only [RD.peek, Bool.false_eq_true, if_false, hpk₁, hpk₂]
        rw [List.drop_eq_nil_of_le (Nat.le_of_not_lt hc₂)]

/-- Abstract view of a sys.FileEntry as LookupReaddir and dotDirents use it:
the results of f.File.IsDir() and f.File.Ino(), the pre-open marker, the
guest name, and the inode reported by f.FS.Stat on the parent directory of
the name. -/
structure FileEntryInfo where
  isDirResult : Except Errno Bool
  inoResult : Except Errno Nat
  isPreopen : Bool
  name : String
  parentStat : Except Errno Nat

def dotDirents (f : FileEntryInfo) : Except Errno (List Dirent) :=
  match f.isDirResult with
  | .error e => .error e
  | .ok false => .error ENOTDIR
  | .ok true =>
    match f.inoResult with
    | .error e => .error e
    | .ok dotIno =>
      if !f.isPreopen && f.name != "." then
        match f.parentStat with
        | .error e => .error e
        | .ok pIno => .ok [⟨".", dotIno, ModeDir⟩, ⟨"..", pIno, ModeDir⟩]
      else .ok [⟨".", dotIno, ModeDir⟩, ⟨"..", 0, ModeDir⟩]

/-- FSContext.LookupReaddir on a cache miss: builds the underlying cursor,
prepends the dotDirents slice through NewConcatReaddir, and returns the
concatenation (dotDirents errors take precedence over the underlying
Readdir error, as in the source; the insertion into the readdirs table does
not affect the returned cursor and is omitted). -/
def LookupReaddirFresh (f : FileEntryInfo) (underlying : Except Errno RD) :
    Except Errno RD :=
  match dotDirents f with
  | .error e => .error e
  | .ok dots =>
    match underlying with
    | .error e => .error e
    | .ok item => .ok (RD.cat (RD.sl ⟨0, dots⟩) item false)

/-- C6: for a directory entry, the first LookupReaddir returns a cursor whose
first two entries are exactly "." with the directory's own inode and ".."
with the parent inode — 0 for a pre-open or the "." directory — both typed
as directories, followed by the entries of the underlying listing; for a
non-directory entry it fails with ENOTDIR whatever the underlying cursor. -/
theorem C6_lookup_readdir_dots (f : FileEntryInfo) (listing : List Dirent)
    (dotIno pIno : Nat) (hlen : listing.length < 2 ^ 64)
    (h₁ : f.isDirResult = Except.ok true)
    (h₂ : f.inoResult = Except.ok dotIno)
    (h₃ : f.parentStat = Except.ok pIno) :
    (∃ rd, LookupReaddirFresh f (.ok (RD.sl ⟨0, listing⟩)) = .ok rd ∧
      rd.drain (listing.length + 3) =
        ⟨".", dotIno, ModeDir⟩ ::
        ⟨"..", if !f.isPreopen && f.name != "." then pIno else 0, ModeDir⟩ ::
        listing) ∧
    (∀ g : FileEntryInfo, ∀ u, g.isDirResult = Except.ok false →
      LookupReaddirFresh g u = .error ENOTDIR) := by
  constructor
  · have hdots : dotDirents f = .ok [⟨".", dotIno, ModeDir⟩,
        ⟨"..", if !f.isPreopen && f.name != "." then pIno else 0, ModeDir⟩] := by
      simp only [dotDirents, h₁, h₂, h₃]
      cases hC : (!f.isPreopen && f.name != ".") <;> simp [hC]
    refine ⟨RD.cat (RD.sl ⟨0, [⟨".", dotIno, ModeDir⟩,
      ⟨"..", if !f.isPreopen && f.name != "." then pIno else 0, ModeDir⟩]⟩)
      (RD.sl ⟨0, listing⟩) false, ?_, ?_⟩
    · simp [LookupReaddirFresh, hdots]
    · rw [drain_cat_sl _ listing (by simp) hlen (listing.length + 3) 0 0
        (by simp; omega)]
      simp
  · intro g u hg
    simp [LookupReaddirFresh, dotDirents, hg]

theorem C6_lookup_readdir_dots_witness :
    (∃ rd,
      LookupReaddirFresh ⟨.ok true, .ok 5, false, "sub", .ok 9⟩
        (.ok (RD.sl ⟨0, [⟨"a", 1, 0⟩]⟩)) = .ok rd ∧
      rd.drain 4 =
        ⟨".", 5, ModeDir⟩ :: ⟨"..", 9, ModeDir⟩ :: [⟨"a", 1, 0⟩]) ∧
    (∀ g : FileEntryInfo, ∀ u, g.isDirResult = Except.ok false →
      LookupReaddirFresh g u = .error ENOTDIR) := by
  have h := C6_lookup_readdir_dots ⟨.ok true, .ok 5, false, "sub", .ok 9⟩
    [⟨"a", 1, 0⟩] 5 9 (by decide) rfl rfl rfl
  exact ⟨by simpa using h.1, h.2⟩

/-! ## ARM64 relocations and long-branch trampolines (wazevo backend arm64)

The source holds several drafts of ResolveRelocations/encodeTrampoline; all
cited drafts are embedded.  Byte and word values are Nat; call-site and
trampoline offsets are int64.  The instruction encoders referenced by the
drafts live in the backend assembler outside src/ and are modelled from the
spec and the ARM64 reference the sources cite. -/

/-- Modelled from the spec: regNumberInEncoding[tmp], the reserved
caller-saved scratch register used by trampolines; defined by the backend
outside src/.  No theorem depends on its value. -/
def tmpRegNumber : Nat := 27

def movzOp : Nat := 2
def movkOp : Nat := 3

/-- Modelled from the spec: the ARM64 move-wide-immediate encoder
(MOVZ/MOVK) in the backend assembler outside src/:
sf<<31 | opc<<29 | 100101<<23 | hw<<21 | imm16<<5 | rd. -/
def encodeMoveWideImmediate (opc rd imm shift size : Nat) : Nat :=
  size <<< 31 ||| opc <<< 29 ||| 37 <<< 23 ||| shift <<< 21 |||
    (imm % 2 ^ 16) <<< 5 ||| rd

/-- Modelled from the spec: the ARM64 register-indirect branch encoder
(BR/BLR) outside src/: 1101011<<25 | opc<<21 | 11111<<16 | rn<<5, where opc
is 0001 exactly when the branch links (BLR). -/
def encodeUnconditionalBranchReg (rn : Nat) (link : Bool) : Nat :=
  107 <<< 25 ||| (if link then 1 else 0) <<< 21 ||| 31 <<< 16 ||| rn <<< 5

/-- Modelled from the spec: the ARM64 immediate branch encoder (B/BL)
outside src/: op<<31 | 101<<26 | imm26, with imm26 the byte offset shifted
right by two and truncated to 26 bits. -/
def encodeUnconditionalBranch (link : Bool) (offset : Int) : Nat :=
  (if link then 1 else 0) <<< 31 ||| 5 <<< 26 |||
    ((Int.fdiv offset 4) % (2 : Int) ^ 26).toNat

/-- Modelled from the spec: the ARM64 register-move encoder
(ORR rd, xzr, rn) outside src/; no theorem depends on its bits. -/
def encodeMov64 (rd rn : Nat) : Nat :=
  1360 <<< 21 ||| rn <<< 16 ||| 31 <<< 5 ||| rd

def byteOfInt (x : Int) : Nat := (x % (256 : Int)).toNat

def goShrInt (x : Int) (n : Nat) : Int := Int.fdiv x ((2 : Int) ^ n)

/-- The four bytes every draft stores over the call-site BL: the low three
bytes of imm26 = diff/4 (Go int64 division truncates toward zero) and a
final byte combining bit 24 of imm26 with opcode 100101 and the sign bit. -/
def encodeBLBytes (diff : Int) : List Nat :=
  let imm26 := Int.tdiv diff 4
  [byteOfInt imm26, byteOfInt (goShrInt imm26 8), byteOfInt (goShrInt imm26 16),
   if diff < 0 then ((goShrInt imm26 24) % (2 : Int) ^ 1).toNat ||| 150
   else ((goShrInt imm26 24) % (2 : Int) ^ 1).toNat ||| 148]

/-- The trampoline of the final encoder (part_007 lines 131-154): movz and
three movk pieces of the absolute address into the scratch register, then a
BR (link bit clear). -/
def trampolineInstrs (addr : Nat) : List Nat :=
  [encodeMoveWideImmediate movzOp tmpRegNumber (addr % 2 ^ 16) 0 1,
   encodeMoveWideImmediate movkOp tmpRegNumber ((addr >>> 16) % 2 ^ 16) 1 1,
   encodeMoveWideImmediate movkOp tmpRegNumber ((addr >>> 32) % 2 ^ 16) 2 1,
   encodeMoveWideImmediate movkOp tmpRegNumber ((addr >>> 48) % 2 ^ 16) 3 1,
   encodeUnconditionalBranchReg tmpRegNumber false]

/-- The trampoline of the part_006 draft (lines 38-57): the same four wide
moves, then BLR (link bit set), a register move, and a branch back past the
call site. -/
def trampolineInstrs006 (addr : Nat) (jumpBack : Int) : List Nat :=
  [encodeMoveWideImmediate movzOp tmpRegNumber (addr % 2 ^ 16) 0 1,
   encodeMoveWideImmediate movkOp tmpRegNumber ((addr >>> 16) % 2 ^ 16) 1 1,
   encodeMoveWideImmediate movkOp tmpRegNumber ((addr >>> 32) % 2 ^ 16) 2 1,
   encodeMoveWideImmediate movkOp tmpRegNumber ((addr >>> 48) % 2 ^ 16) 3 1,
   encodeUnconditionalBranchReg tmpRegNumber true,
   encodeMov64 tmpRegNumber tmpRegNumber,
   encodeUnconditionalBranch false (jumpBack - 7 * 4)]

/-- The trampoline of the part_007 range-checked draft (lines 43-70),
written over the call site itself: four wide moves then BLR. -/
def trampolineInstrs007A (addr : Nat) : List Nat :=
  [encodeMoveWideImmediate movzOp tmpRegNumber (addr % 2 ^ 16) 0 1,
   encodeMoveWideImmediate movkOp tmpRegNumber ((addr >>> 16) % 2 ^ 16) 1 1,
   encodeMoveWideImmediate movkOp tmpRegNumber ((addr >>> 32) % 2 ^ 16) 2 1,
   encodeMoveWideImmediate movkOp tmpRegNumber ((addr >>> 48) % 2 ^ 16) 3 1,
   encodeUnconditionalBranchReg tmpRegNumber true]

structure RelocResult where
  callSite : List Nat
  trampoline : Option (Int × List Nat)
deriving DecidableEq, Repr

/-- Per-relocation step of part_006 ResolveRelocations (lines 12-36): the
range check is short-circuited by a literal true, so every relocation is
routed through the trampoline at r.TrampolineOffset and the BL is patched
toward that trampoline. -/
def resolveReloc006 (instrOffset calleeFnOffset trampolineOffset : Int)
    (base : Nat) : RelocResult :=
  let diff₀ := calleeFnOffset - instrOffset
  if True ∨ diff₀ < -(2 ^ 25) * 4 ∨ diff₀ > (2 ^ 25 - 1) * 4 then
    let diff := trampolineOffset - instrOffset
    let addr := (base + uint64OfInt64 calleeFnOffset) % 2 ^ 64
    { callSite := encodeBLBytes diff,
      trampoline := some (trampolineOffset, trampolineInstrs006 addr (-diff + 8)) }
  else { callSite := encodeBLBytes diff₀, trampoline := none }

/-- Per-relocation step of the range-checked ResolveRelocations draft
(part_007 lines 12-41): an in-range displacement patches the BL immediate
with diff/4 and writes no trampoline; an out-of-range displacement writes
the five-instruction trampoline over the call site and leaves the BL
placeholder unpatched (the loop continues). -/
def resolveReloc007A (instrOffset calleeFnOffset : Int) (base : Nat) :
    RelocResult :=
  let diff := calleeFnOffset - instrOffset
  if diff < -(2 ^ 25) * 4 ∨ diff > (2 ^ 25 - 1) * 4 then
    let addr := (base + uint64OfInt64 calleeFnOffset) % 2 ^ 64
    { callSite := [], trampoline := some (instrOffset, trampolineInstrs007A addr) }
  else { callSite := encodeBLBytes diff, trampoline := none }

/-- Per-relocation step of the final ResolveRelocations (part_007 lines
87-120): a relocation with a reserved trampoline offset (> 0) patches the
BL toward the trampoline and writes the BR-based trampoline there;
otherwise the BL immediate is patched with the direct displacement. -/
def resolveReloc007B (instrOffset calleeFnOffset trampolineOffset : Int)
    (base : Nat) : RelocResult :=
  let diff₀ := calleeFnOffset - instrOffset
  if trampolineOffset > 0 then
    let diff := trampolineOffset - instrOffset
    let addr := (base + uint64OfInt64 calleeFnOffset) % 2 ^ 64
    { callSite := encodeBLBytes diff,
      trampoline := some (trampolineOffset, trampolineInstrs addr) }
  else { callSite := encodeBLBytes diff₀, trampoline := none }

/-- C1: evaluation at an in-range relocation (call site 0, callee offset
256, displacement 256 bytes, far inside ±128MiB, trampoline reserved at
1024).  part_006's resolver still routes the call through the trampoline —
its range check is dead code behind a literal true — and patches the BL
toward offset 1024 instead of the callee, while part_007's range-checked
resolver patches the BL with displacement/4 and writes no trampoline,
exactly as the claim (and the comment above part_006's dead condition)
describe. -/
theorem C1_resolve_relocations_in_range :
    ¬((256 : Int) < -(2 ^ 25) * 4 ∨ (256 : Int) > (2 ^ 25 - 1) * 4) ∧
    resolveReloc007A 0 256 0 =
      { callSite := encodeBLBytes 256, trampoline := none } ∧
    (resolveReloc006 0 256 1024 0).trampoline ≠ none ∧
    (resolveReloc006 0 256 1024 0).callSite = encodeBLBytes 1024 ∧
    encodeBLBytes 1024 ≠ encodeBLBytes 256 := by
  decide

/-- C2 counterexample: at an out-of-range relocation (callee 2^30 bytes
away) the trampoline the part_006 draft writes at the reserved trampoline
offset has seven instructions, and its register-indirect branch (index 4)
carries the link bit — BLR, not the linkless BR of the claim — so the claim
as stated over the cited drafts fails. -/
theorem C2_trampoline_counterexample :
    (resolveReloc006 0 (2 ^ 30) 64 0).trampoline =
      some (64, trampolineInstrs006 (2 ^ 30) (-(64 : Int) + 8)) ∧
    (trampolineInstrs006 (2 ^ 30) (-(64 : Int) + 8)).length = 7 ∧
    (trampolineInstrs006 (2 ^ 30) (-(64 : Int) + 8)).getD 4 0 =
      encodeUnconditionalBranchReg tmpRegNumber true ∧
    encodeUnconditionalBranchReg tmpRegNumber true ≠
      encodeUnconditionalBranchReg tmpRegNumber false := by
  decide

/-! ## A small ARM64 semantics for the trampoline instructions

Enough of the ISA to state what the five-instruction trampoline does: wide
moves build a 64-bit value in a register 16 bits at a time, BR jumps to a
register without touching the link register, BLR would overwrite it. -/

inductive AInstr where
  | movz (rd imm hw : Nat)
  | movk (rd imm hw : Nat)
  | br (rn : Nat)
  | blr (rn : Nat)
deriving DecidableEq, Repr

def encodeAInstr : AInstr → Nat
  | .movz rd imm hw => encodeMoveWideImmediate movzOp rd imm hw 1
  | .movk rd imm hw => encodeMoveWideImmediate movkOp rd imm hw 1
  | .br rn => encodeUnconditionalBranchReg rn false
  | .blr rn => encodeUnconditionalBranchReg rn true

structure ArmState where
  regs : Nat → Nat
  pc : Nat
  lr : Nat

def updReg (f : Nat → Nat) (i v : Nat) : Nat → Nat :=
  fun j => if j = i then v else f j

/-- Replace the 16-bit field at position 16*hw of a register value (MOVK). -/
def insertField (old imm hw : Nat) : Nat :=
  old % 2 ^ (16 * hw) + (imm % 2 ^ 16) * 2 ^ (16 * hw) +
    old / 2 ^ (16 * (hw + 1)) * 2 ^ (16 * (hw + 1))

def stepInstr (s : ArmState) : AInstr → ArmState
  | .movz rd imm hw =>
    { s with regs := updReg s.regs rd ((imm % 2 ^ 16) * 2 ^ (16 * hw)),
             pc := s.pc + 4 }
  | .movk rd imm hw =>
    { s with regs := updReg s.regs rd (insertField (s.regs rd) imm hw),
             pc := s.pc + 4 }
  | .br rn => { s with pc := s.regs rn }
  | .blr rn => { s with pc := s.regs rn, lr := (s.pc + 4) % 2 ^ 64 }

def runInstrs (s : ArmState) (l : List AInstr) : ArmState :=
  l.foldl stepInstr s

def trampolineAbstract (addr : Nat) : List AInstr :=
  [.movz tmpRegNumber (addr % 2 ^ 16) 0,
   .movk tmpRegNumber ((addr >>> 16) % 2 ^ 16) 1,
   .movk tmpRegNumber ((addr >>> 32) % 2 ^ 16) 2,
   .movk tmpRegNumber ((addr >>> 48) % 2 ^ 16) 3,
   .br tmpRegNumber]

theorem C2_trampoline_br_amended
    (instrOffset calleeFnOffset trampolineOffset : Int) (base : Nat)
    (s : ArmState) (addr : Nat)
    (htr : trampolineOffset > 0)
    (haddr : addr = (base + uint64OfInt64 calleeFnOffset) % 2 ^ 64) :
    (resolveReloc007B instrOffset calleeFnOffset trampolineOffset base).trampoline =
      some (trampolineOffset, trampolineInstrs addr) ∧
    trampolineInstrs addr = (trampolineAbstract addr).map encodeAInstr ∧
    (trampolineInstrs addr).get? 4 =
      some (encodeUnconditionalBranchReg tmpRegNumber false) ∧
    Nat.testBit (encodeUnconditionalBranchReg tmpRegNumber false) 21 = false ∧
    Nat.testBit (encodeUnconditionalBranchReg tmpRegNumber true) 21 = true ∧
    (runInstrs s (trampolineAbstract addr)).regs tmpRegNumber = addr % 2 ^ 64 ∧
    (runInstrs s (trampolineAbstract addr)).pc = addr % 2 ^ 64 ∧
    (runInstrs s (trampolineAbstract addr)).lr = s.lr ∧
    (∀ r, r ≠ tmpRegNumber → (runInstrs s (trampolineAbstract addr)).regs r =
      s.regs r) := by
  have hval : (runInstrs s (trampolineAbstract addr)).regs tmpRegNumber =
      addr % 2 ^ 64 := by
    simp only [runInstrs, trampolineAbstract, List.foldl, stepInstr, updReg,
      insertField, if_pos rfl]
    rw [Nat.shiftRight_eq_div_pow, Nat.shiftRight_eq_div_pow,
      Nat.shiftRight_eq_div_pow]
    norm_num
    omega
  have hpc : (runInstrs s (trampolineAbstract addr)).pc =
      (runInstrs s (trampolineAbstract addr)).regs tmpRegNumber := rfl
  have hlr : (runInstrs s (trampolineAbstract addr)).lr = s.lr := rfl
  refine ⟨?_, rfl, rfl, by decide, by decide, hval, ?_, hlr, ?_⟩
  · subst haddr
    simp [resolveReloc007B, htr]
  · rw [hpc, hval]
  · intro r hr
    simp [runInstrs, trampolineAbstract, List.foldl, stepInstr, updReg, hr]

theorem C2_trampoline_br_amended_witness :
    (resolveReloc007B 0 (2 ^ 30) 64 0).trampoline =
      some (64, trampolineInstrs (2 ^ 30)) ∧
    (runInstrs ⟨fun _ => 0, 0, 77⟩ (trampolineAbstract (2 ^ 30))).lr = 77 := by
  have h := C2_trampoline_br_amended 0 (2 ^ 30) 64 0 ⟨fun _ => 0, 0, 77⟩
    (2 ^ 30) (by decide) (by decide)
  exact ⟨h.1, h.2.2.2.2.2.2.2.1⟩
